import Mathlib

/-!
Verification development for the tourist-analysis pipeline
(`tourist_analysis.py` and `tourist_desktop_app.py`).

The pipeline is embedded shallowly:

* a raw CSV row becomes a `RawRow` of strings;
* `load_data` models `pd.read_csv` + `pd.to_datetime(format='%Y-%m')`
  (which raises on any unparseable period, hence `Option` on the whole
  load) + `pd.to_numeric(errors='coerce')` (which never raises and turns
  unparseable values into `none`, pandas `NaN`);
* `clean_data` models the completeness filter, returning the retained
  rows together with the warning flag from its no-complete-year branch;
* `analyze_seasonality` models the per-(geo, month, c_resid) groupby
  aggregation with mean and sample standard deviation (carried as its
  square, the sample variance, since the square root of a rational is
  irrational; pandas `std` is `none`/NaN exactly when the variance is
  `none`, and zero exactly when the variance is `some 0`);
* `identify_top_destinations` models the ranking engine.

Numeric cell values are embedded as `ℚ`.  pandas `groupby` sorts its
keys; Python compares strings by code point, which the executable
comparison `chLe` on `String.data` reproduces (`String.lt` of core Lean
is the same order but is not kernel-reducible, so it is not used in
definitions).
-/

/-- Code-point lexicographic `≤` on lists of characters, the order Python
uses on strings (and the order `pandas.groupby` sorts string keys by). -/
def chLe : List Char → List Char → Bool
  | [], _ => true
  | _ :: _, [] => false
  | a :: as, b :: bs =>
    if a < b then true
    else if b < a then false
    else chLe as bs

/-- Code-point lexicographic `≤` on strings. -/
def strLe (a b : String) : Bool := chLe a.data b.data

theorem chLe_refl : ∀ x : List Char, chLe x x = true := by
  intro x
  induction x with
  | nil => rfl
  | cons a as ih => simp [chLe, ih]

theorem chLe_total : ∀ x y : List Char, chLe x y = true ∨ chLe y x = true := by
  intro x
  induction x with
  | nil => intro y; left; rfl
  | cons a as ih =>
    intro y
    cases y with
    | nil => right; rfl
    | cons b bs =>
      rcases lt_trichotomy a b with h | h | h
      · left; simp [chLe, h]
      · subst h
        rcases ih bs with h' | h'
        · left; simp [chLe, h']
        · right; simp [chLe, h']
      · right; simp [chLe, h]

theorem chLe_trans :
    ∀ x y z : List Char, chLe x y = true → chLe y z = true → chLe x z = true := by
  intro x
  induction x with
  | nil => intro y z _ _; rfl
  | cons a as ih =>
    intro y z hxy hyz
    cases y with
    | nil => simp [chLe] at hxy
    | cons b bs =>
      cases z with
      | nil => simp [chLe] at hyz
      | cons c cs =>
        rcases lt_trichotomy a b with hab | hab | hab
        · rcases lt_trichotomy b c with hbc | hbc | hbc
          · simp [chLe, lt_trans hab hbc]
          · subst hbc; simp [chLe, hab]
          · simp [chLe, hbc, lt_asymm hbc] at hyz
        · subst hab
          rcases lt_trichotomy a c with hac | hac | hac
          · simp [chLe, hac]
          · subst hac
            simp only [chLe, lt_irrefl, if_false] at hxy hyz ⊢
            exact ih bs cs hxy hyz
          · simp [chLe, hac, lt_asymm hac] at hyz
        · simp [chLe, hab, lt_asymm hab] at hxy

theorem chLe_antisymm :
    ∀ x y : List Char, chLe x y = true → chLe y x = true → x = y := by
  intro x
  induction x with
  | nil =>
    intro y _ hyx
    cases y with
    | nil => rfl
    | cons b bs => simp [chLe] at hyx
  | cons a as ih =>
    intro y hxy hyx
    cases y with
    | nil => simp [chLe] at hxy
    | cons b bs =>
      rcases lt_trichotomy a b with hab | hab | hab
      · simp [chLe, hab, lt_asymm hab] at hyx
      · subst hab
        simp only [chLe, lt_irrefl, if_false] at hxy hyx
        exact congrArg (a :: ·) (ih bs hxy hyx)
      · simp [chLe, hab, lt_asymm hab] at hxy

theorem strLe_refl (a : String) : strLe a a = true := chLe_refl a.data

theorem strLe_antisymm {a b : String} (h1 : strLe a b = true) (h2 : strLe b a = true) :
    a = b := by
  cases a; cases b
  exact congrArg String.mk (chLe_antisymm _ _ h1 h2)

/-- Splits a character list at every occurrence of `sep` (models Python's
`str.split` as used to cut `YYYY-MM` and decimal tokens apart). -/
def splitChar (sep : Char) : List Char → List Char → List (List Char)
  | [], acc => [acc.reverse]
  | c :: cs, acc =>
    if c = sep then acc.reverse :: splitChar sep cs []
    else splitChar sep cs (c :: acc)

/-- Numeric value of a digit list, `none` as soon as a non-digit occurs. -/
def digitsToNatAux : List Char → Nat → Option Nat
  | [], acc => some acc
  | c :: cs, acc =>
    if c.isDigit then digitsToNatAux cs (acc * 10 + (c.toNat - 48)) else none

/-- Parses a non-empty all-digit character list as a natural number. -/
def digitsToNat (cs : List Char) : Option Nat :=
  if cs = [] then none else digitsToNatAux cs 0

/-- Models `pd.to_datetime(cell, format='%Y-%m')` on a single cell: the year
group of `%Y` is exactly four digits, the month group of `%m` is one or two
digits denoting 1–12, the two groups are separated by a single `'-'`, and
nothing else may appear (pandas matches the format against the whole cell).
`none` is the case in which pandas raises, aborting the whole load. -/
def parsePeriod (s : String) : Option (Nat × Nat) :=
  match splitChar '-' s.data [] with
  | [ycs, mcs] =>
    match digitsToNat ycs, digitsToNat mcs with
    | some y, some m =>
      if ycs.length = 4 ∧ 1 ≤ y ∧ 1 ≤ m ∧ m ≤ 12 ∧ mcs.length ≤ 2 then
        some (y, m)
      else none
    | _, _ => none
  | _ => none

/-- Value of an all-digit character list (`0` when empty); used below only
behind an `allDigits` guard. -/
def digitsVal : List Char → Nat → Nat
  | [], acc => acc
  | c :: cs, acc => digitsVal cs (acc * 10 + (c.toNat - 48))

def allDigits (cs : List Char) : Bool := cs.all Char.isDigit

/-- Models `pd.to_numeric(cell, errors='coerce')` on a single cell for the
plain decimal fragment of the numeric grammar: an optional sign, an integer
part and an optional fraction part, at least one part non-empty (exponent
notation is not modeled; no claim depends on which exact tokens are
numeric).  `none` is pandas `NaN`: coercion never raises, it only yields a
missing value. -/
def toNumeric (s : String) : Option ℚ :=
  let (neg, body) :=
    match s.data with
    | '-' :: rest => (true, rest)
    | '+' :: rest => (false, rest)
    | cs => (false, cs)
  let signed : ℚ → ℚ := fun q => if neg then -q else q
  match splitChar '.' body [] with
  | [ip] =>
    if ip ≠ [] ∧ allDigits ip then some (signed (digitsVal ip 0)) else none
  | [ip, fp] =>
    if (ip ≠ [] ∨ fp ≠ []) ∧ allDigits ip ∧ allDigits fp then
      some (signed ((digitsVal ip 0 : ℚ) + (digitsVal fp 0 : ℚ) / (10 ^ fp.length : ℚ)))
    else none
  | _ => none

/-- One raw CSV row, the four columns the pipeline uses (unknown extra
columns are ignored by the code and are not modeled). -/
structure RawRow where
  geo : String
  TIME_PERIOD : String
  OBS_VALUE : String
  c_resid : String
deriving DecidableEq, Repr

/-- One observation after `load_data`: the period is parsed to
`(year, month)` and the value is numeric or missing (pandas `NaN`). -/
structure Obs where
  geo : String
  period : Nat × Nat
  obs_value : Option ℚ
  c_resid : String
deriving DecidableEq, Repr

/-- Models `load_data`: `pd.read_csv` followed by
`df['TIME_PERIOD'] = pd.to_datetime(df['TIME_PERIOD'], format='%Y-%m')`
(default `errors='raise'`: one bad period cell makes the whole load fail,
hence the `Option` on the full row list) and
`df['OBS_VALUE'] = pd.to_numeric(df['OBS_VALUE'], errors='coerce')`
(never fails, bad cells become missing values). -/
def load_data : List RawRow → Option (List Obs)
  | [] => some []
  | r :: rs =>
    match parsePeriod r.TIME_PERIOD, load_data rs with
    | some p, some rest =>
      some (⟨r.geo, p, toNumeric r.OBS_VALUE, r.c_resid⟩ :: rest)
    | _, _ => none

/-- One observation of the cleaned dataset: the value is present and the
derived `year` and `month` columns of `clean_data` are attached. -/
structure CObs where
  geo : String
  period : Nat × Nat
  obs_value : ℚ
  c_resid : String
  year : Nat
  month : Nat
deriving DecidableEq, Repr

/-- Steps 1–3 of `clean_data` composed:
`df.dropna(subset=['OBS_VALUE'])` drops rows with missing value,
`df_clean[df_clean['OBS_VALUE'] >= 0]` drops negative values, and the
`year`/`month` columns are extracted from the parsed period. -/
def annotate (df : List Obs) : List CObs :=
  df.filterMap fun o =>
    match o.obs_value with
    | some v =>
      if 0 ≤ v then some ⟨o.geo, o.period, v, o.c_resid, o.period.1, o.period.2⟩
      else none
    | none => none

/-- `df_clean.groupby('year').size()` for one year: the number of surviving
rows of that calendar year across the whole dataset, all entities and
categories together. -/
def yearRowCount (s : List CObs) (y : Nat) : Nat := s.countP fun o => o.year = y

/-- `year_counts[year_counts >= 12].index.tolist()`: the calendar years the
filter marks complete. -/
def completeYears (df : List Obs) : List Nat :=
  (((annotate df).map (·.year)).dedup).filter fun y => 12 ≤ yearRowCount (annotate df) y

/-- Models `clean_data`: returns the retained observations together with the
warning flag of the `else` branch ("Brak pełnych lat w danych", printed when
no year is complete and the year restriction is skipped).  The
`country_year_counts`/`valid_country_years` computation of the source and
the commented-out per-entity filter do not affect the returned frame and
are not modeled. -/
def clean_data (df : List Obs) : List CObs × Bool :=
  let s := annotate df
  let complete := completeYears df
  if complete ≠ [] then (s.filter fun o => o.year ∈ complete, false)
  else (s, true)

/-- Number of distinct calendar months (1–12) occurring in a raw
observation set. -/
def distinctMonthCount (df : List Obs) : Nat :=
  ((df.map fun o => o.period.2).dedup).length

/-- Inserts `x` in front of the first element `y` with `le x y`; together
with `insertionSort` this is the stable sort for `le`.  It is used in two
roles: for the groupby key lists, which are deduplicated and therefore
tie-free, any correct sort produces the same list, so the model is exact;
for `sort_values` (whose default `kind='quicksort'` is unstable, so the
source fixes no order among equal keys) it serves as the executable
representative of a sorted arrangement, and the claims proved about it use
only consequences every sorted arrangement shares — ordering of the sort
key, length and membership. -/
def insertSorted (le : α → α → Bool) (x : α) : List α → List α
  | [] => [x]
  | y :: ys => if le x y then x :: y :: ys else y :: insertSorted le x ys

/-- Stable insertion sort with respect to `le`. -/
def insertionSort (le : α → α → Bool) : List α → List α
  | [] => []
  | x :: xs => insertSorted le x (insertionSort le xs)

theorem perm_insertSorted (le : α → α → Bool) (x : α) :
    ∀ l : List α, List.Perm (insertSorted le x l) (x :: l) := by
  intro l
  induction l with
  | nil => exact List.Perm.refl _
  | cons y ys ih =>
    by_cases h : le x y
    · simp [insertSorted, h]
    · simp only [insertSorted, if_neg h]
      exact (ih.cons y).trans (List.Perm.swap x y ys)

theorem perm_insertionSort (le : α → α → Bool) :
    ∀ l : List α, List.Perm (insertionSort le l) l := by
  intro l
  induction l with
  | nil => exact List.Perm.refl _
  | cons x xs ih =>
    exact (perm_insertSorted le x (insertionSort le xs)).trans (ih.cons x)

theorem mem_insertionSort (le : α → α → Bool) (l : List α) (y : α) :
    y ∈ insertionSort le l ↔ y ∈ l :=
  (perm_insertionSort le l).mem_iff

theorem pairwise_insertSorted (le : α → α → Bool) (S : α → α → Prop)
    (htot : ∀ a b, le a b = true ∨ le b a = true)
    (htrans : ∀ a b c, le a b = true → le b c = true → le a c = true)
    (x : α) :
    ∀ l : List α,
      l.Pairwise (fun a b => le a b = true ∧ (le b a = true → S a b)) →
      (∀ y ∈ l, S x y) →
      (insertSorted le x l).Pairwise
        (fun a b => le a b = true ∧ (le b a = true → S a b)) := by
  intro l
  induction l with
  | nil => intro _ _; exact List.pairwise_singleton _ x
  | cons y ys ih =>
    intro hl hx
    rw [List.pairwise_cons] at hl
    obtain ⟨hy, hys⟩ := hl
    by_cases h : le x y
    · simp only [insertSorted, if_pos h]
      refine List.pairwise_cons.mpr ⟨?_, List.pairwise_cons.mpr ⟨hy, hys⟩⟩
      intro z hz
      rcases List.mem_cons.mp hz with rfl | hz'
      · exact ⟨h, fun _ => hx z (List.mem_cons_self _ _)⟩
      · exact ⟨htrans x y z h (hy z hz').1,
          fun _ => hx z (List.mem_cons_of_mem _ hz')⟩
    · simp only [insertSorted, if_neg h]
      refine List.pairwise_cons.mpr
        ⟨?_, ih hys fun z hz => hx z (List.mem_cons_of_mem _ hz)⟩
      intro z hz
      have hz' : z = x ∨ z ∈ ys := by
        simpa using (perm_insertSorted le x ys).mem_iff.mp hz
      rcases hz' with rfl | hz'
      · rcases htot z y with h' | h'
        · exact absurd h' (by simpa using h)
        · exact ⟨h', fun hzy => absurd hzy (by simpa using h)⟩
      · exact hy z hz'

/-- Stable sorting of a `Pairwise S` list: the output is ordered by `le`,
and any two elements tied under `le` keep their input relation `S`. -/
theorem pairwise_insertionSort (le : α → α → Bool) (S : α → α → Prop)
    (htot : ∀ a b, le a b = true ∨ le b a = true)
    (htrans : ∀ a b c, le a b = true → le b c = true → le a c = true) :
    ∀ l : List α, l.Pairwise S →
      (insertionSort le l).Pairwise
        (fun a b => le a b = true ∧ (le b a = true → S a b)) := by
  intro l
  induction l with
  | nil => intro _; exact List.Pairwise.nil
  | cons x xs ih =>
    intro hl
    rw [List.pairwise_cons] at hl
    exact pairwise_insertSorted le S htot htrans x (insertionSort le xs)
      (ih hl.2) fun y hy => hl.1 y ((mem_insertionSort le xs y).mp hy)

/-- Lexicographic `≤` on `(geo, c_resid)` keys: the order in which
`groupby(['geo', 'c_resid'], sort=True)` emits its groups. -/
def keyLe2 (a b : String × String) : Bool :=
  if a.1 = b.1 then strLe a.2 b.2 else strLe a.1 b.1

/-- Lexicographic `≤` on `(geo, month, c_resid)` keys: the order in which
`groupby(['geo', 'month', 'c_resid'], sort=True)` emits its groups. -/
def keyLe3 (a b : String × Nat × String) : Bool :=
  if a.1 = b.1 then
    if a.2.1 = b.2.1 then strLe a.2.2 b.2.2 else decide (a.2.1 < b.2.1)
  else strLe a.1 b.1

theorem keyLe2_refl (a : String × String) : keyLe2 a a = true := by
  simp [keyLe2, strLe_refl]

theorem keyLe2_total (a b : String × String) :
    keyLe2 a b = true ∨ keyLe2 b a = true := by
  unfold keyLe2
  by_cases h : a.1 = b.1
  · rw [if_pos h, if_pos h.symm]
    exact chLe_total _ _
  · rw [if_neg h, if_neg (Ne.symm h)]
    exact chLe_total _ _

theorem keyLe2_trans (a b c : String × String)
    (hab : keyLe2 a b = true) (hbc : keyLe2 b c = true) : keyLe2 a c = true := by
  unfold keyLe2 at hab hbc ⊢
  by_cases h1 : a.1 = b.1 <;> by_cases h2 : b.1 = c.1
  · rw [if_pos h1] at hab; rw [if_pos h2] at hbc
    rw [if_pos (h1.trans h2)]
    exact chLe_trans _ _ _ hab hbc
  · rw [if_pos h1] at hab; rw [if_neg h2] at hbc
    rw [if_neg (h1 ▸ h2)]
    exact h1 ▸ hbc
  · rw [if_neg h1] at hab; rw [if_pos h2] at hbc
    rw [if_neg (h2 ▸ h1)]
    exact h2 ▸ hab
  · rw [if_neg h1] at hab; rw [if_neg h2] at hbc
    by_cases h3 : a.1 = c.1
    · exfalso
      apply h1
      apply strLe_antisymm hab
      rw [h3]
      exact hbc
    · rw [if_neg h3]
      exact chLe_trans _ _ _ hab hbc

theorem keyLe3_refl (a : String × Nat × String) : keyLe3 a a = true := by
  simp [keyLe3, strLe_refl]

theorem keyLe3_total (a b : String × Nat × String) :
    keyLe3 a b = true ∨ keyLe3 b a = true := by
  unfold keyLe3
  by_cases h : a.1 = b.1
  · rw [if_pos h, if_pos h.symm]
    by_cases h2 : a.2.1 = b.2.1
    · rw [if_pos h2, if_pos h2.symm]
      exact chLe_total _ _
    · rw [if_neg h2, if_neg (Ne.symm h2)]
      rcases Nat.lt_or_ge a.2.1 b.2.1 with h3 | h3
      · left; exact decide_eq_true h3
      · right
        exact decide_eq_true (lt_of_le_of_ne h3 (Ne.symm h2))
  · rw [if_neg h, if_neg (Ne.symm h)]
    exact chLe_total _ _

theorem keyLe3_trans (a b c : String × Nat × String)
    (hab : keyLe3 a b = true) (hbc : keyLe3 b c = true) : keyLe3 a c = true := by
  unfold keyLe3 at hab hbc ⊢
  by_cases h1 : a.1 = b.1 <;> by_cases h2 : b.1 = c.1
  · rw [if_pos h1] at hab; rw [if_pos h2] at hbc
    rw [if_pos (h1.trans h2)]
    by_cases h3 : a.2.1 = b.2.1 <;> by_cases h4 : b.2.1 = c.2.1
    · rw [if_pos h3] at hab; rw [if_pos h4] at hbc
      rw [if_pos (h3.trans h4)]
      exact chLe_trans _ _ _ hab hbc
    · rw [if_pos h3] at hab; rw [if_neg h4] at hbc
      rw [if_neg (h3 ▸ h4)]
      exact h3 ▸ hbc
    · rw [if_neg h3] at hab; rw [if_pos h4] at hbc
      rw [if_neg (h4 ▸ h3)]
      exact h4 ▸ hab
    · rw [if_neg h3] at hab; rw [if_neg h4] at hbc
      have hab' := of_decide_eq_true hab
      have hbc' := of_decide_eq_true hbc
      have : a.2.1 < c.2.1 := lt_trans hab' hbc'
      rw [if_neg (Nat.ne_of_lt this)]
      exact decide_eq_true this
  · rw [if_pos h1] at hab; rw [if_neg h2] at hbc
    rw [if_neg (h1 ▸ h2)]
    exact h1 ▸ hbc
  · rw [if_neg h1] at hab; rw [if_pos h2] at hbc
    rw [if_neg (h2 ▸ h1)]
    exact h2 ▸ hab
  · rw [if_neg h1] at hab; rw [if_neg h2] at hbc
    by_cases h3 : a.1 = c.1
    · exfalso
      apply h1
      apply strLe_antisymm hab
      rw [h3]
      exact hbc
    · rw [if_neg h3]
      exact chLe_trans _ _ _ hab hbc

/-- The `(geo, month, c_resid)` group keys of
`df.groupby(['geo', 'month', 'c_resid'])`: the distinct key triples of the
cleaned dataset, emitted in ascending lexicographic order (pandas
`sort=True` default). -/
def seasonKeys (df : List CObs) : List (String × Nat × String) :=
  insertionSort keyLe3 ((df.map fun o => (o.geo, o.month, o.c_resid)).dedup)

/-- The `OBS_VALUE` column of one `(geo, month, c_resid)` group. -/
def groupVals (df : List CObs) (g : String) (m : Nat) (t : String) : List ℚ :=
  (df.filter fun o => decide (o.geo = g ∧ o.month = m ∧ o.c_resid = t)).map
    (·.obs_value)

/-- Arithmetic mean of a column (`agg('mean')`). -/
def qmean (xs : List ℚ) : ℚ := xs.sum / (xs.length : ℚ)

/-- Sample variance with `ddof = 1`, the square of pandas `agg('std')`:
`none` (pandas NaN) for groups of fewer than two samples.  The square root
of a rational is irrational, so the embedding carries the variance; the
standard deviation is missing iff this is `none` and zero iff this is
`some 0`. -/
def sampleVarSq (xs : List ℚ) : Option ℚ :=
  if xs.length ≤ 1 then none
  else some (((xs.map fun x => (x - qmean xs) ^ 2).sum) / ((xs.length : ℚ) - 1))

/-- One row of the seasonality frame: the multi-year mean and standard
deviation (as `std_sq`, see `sampleVarSq`) of nights for one
`(geo, month, c_resid)` key.  The cosmetic `month_name` column of the
source is not modeled. -/
structure SeasonRec where
  geo : String
  month : Nat
  c_resid : String
  avg_nights : ℚ
  std_sq : Option ℚ
deriving DecidableEq, Repr

/-- Models `analyze_seasonality`: one row per distinct
`(geo, month, c_resid)` key of the cleaned dataset, keys in pandas groupby
order, with the group's mean and (squared) sample standard deviation.  The
`seasonality_summary` of lines 124–126 applies `idxmax`/`idxmin` to this
frame exactly as `idxmaxAvg`/`idxminAvg` below do. -/
def analyze_seasonality (df : List CObs) : List SeasonRec :=
  (seasonKeys df).map fun k =>
    ⟨k.1, k.2.1, k.2.2, qmean (groupVals df k.1 k.2.1 k.2.2),
      sampleVarSq (groupVals df k.1 k.2.1 k.2.2)⟩

/-- The rows of the seasonality frame for one `(geo, c_resid)` pair, in
frame order (month ascending), as both surfaces slice it. -/
def sliceFor (seas : List SeasonRec) (g t : String) : List SeasonRec :=
  seas.filter fun r => decide (r.geo = g ∧ r.c_resid = t)

/-- pandas `Series.idxmax` on the `avg_nights` column of a slice: the first
row, in frame order, attaining the maximal mean. -/
def idxmaxAvg : List SeasonRec → Option SeasonRec
  | [] => none
  | r :: rs =>
    match idxmaxAvg rs with
    | none => some r
    | some m => if r.avg_nights < m.avg_nights then some m else some r

/-- pandas `Series.idxmin` on the `avg_nights` column of a slice: the first
row, in frame order, attaining the minimal mean. -/
def idxminAvg : List SeasonRec → Option SeasonRec
  | [] => none
  | r :: rs =>
    match idxminAvg rs with
    | none => some r
    | some m => if m.avg_nights < r.avg_nights then some m else some r

/-- Maximum of a nonempty rational column (`DataFrame.max(axis=1)` over the
months present; absent months are NaN and are skipped by pandas). -/
def qListMax : List ℚ → Option ℚ
  | [] => none
  | [x] => some x
  | x :: y :: t => (qListMax (y :: t)).map (max x)

/-- Minimum of a nonempty rational column (`DataFrame.min(axis=1)`). -/
def qListMin : List ℚ → Option ℚ
  | [] => none
  | [x] => some x
  | x :: y :: t => (qListMin (y :: t)).map (min x)

/-- The seasonality index of `generate_analytical_commentary` (lines
376–381; `plot_seasonality` lines 198–203 are the same code): maximum
monthly mean over minimum monthly mean for one `(geo, c_resid)` pair of the
pivot table, a minimum of exactly 0 first replaced by NaN so that the
division yields NaN, and NaN finally filled with 1.0. -/
def commentary_seasonality_index (seas : List SeasonRec) (g t : String) :
    Option ℚ :=
  match qListMax ((sliceFor seas g t).map (·.avg_nights)),
        qListMin ((sliceFor seas g t).map (·.avg_nights)) with
  | some mx, some mn => some (if mn = 0 then 1 else mx / mn)
  | _, _ => none

/-- The seasonality index printed by the desktop app
(`TouristAnalysisApp.display_statistics`, lines 263–281):
`max_month['avg_nights'] / min_month['avg_nights'] if min > 0 else 0`,
guarded by the slice being nonempty. -/
def display_seasonality_index (seas : List SeasonRec) (g t : String) :
    Option ℚ :=
  match idxmaxAvg (sliceFor seas g t), idxminAvg (sliceFor seas g t) with
  | some mx, some mn =>
    some (if 0 < mn.avg_nights then mx.avg_nights / mn.avg_nights else 0)
  | _, _ => none

/-- One row of `country_totals`. -/
structure TotalRow where
  geo : String
  c_resid : String
  total : ℚ
deriving DecidableEq, Repr

/-- `df.groupby(['geo', 'c_resid'])['OBS_VALUE'].sum().reset_index()`: one
row per distinct `(geo, c_resid)` key, keys in ascending lexicographic
order (pandas `sort=True` default), with the summed nights. -/
def country_totals (df : List CObs) : List TotalRow :=
  (insertionSort keyLe2 ((df.map fun o => (o.geo, o.c_resid)).dedup)).map
    fun k =>
      ⟨k.1, k.2,
        ((df.filter fun o => decide (o.geo = k.1 ∧ o.c_resid = k.2)).map
          (·.obs_value)).sum⟩

/-- pandas `Series.unique()`: distinct values in first-encounter order. -/
def uniqueFirstAux [DecidableEq α] : List α → List α → List α
  | [], acc => acc.reverse
  | x :: xs, acc =>
    if x ∈ acc then uniqueFirstAux xs acc else uniqueFirstAux xs (x :: acc)

/-- pandas `Series.unique()`: distinct values in first-encounter order. -/
def uniqueFirst [DecidableEq α] (l : List α) : List α := uniqueFirstAux l []

/-- The descending comparison of
`sort_values('OBS_VALUE', ascending=False)`; see `insertSorted` for the
status of the sort model — the source's default `kind='quicksort'` fixes no
order among equal totals, so only tie-order-independent consequences of the
sort are claimed. -/
def leTotalDesc (a b : TotalRow) : Bool := decide (b.total ≤ a.total)

/-- pandas `DataFrame.head(n)`: the first `n` rows when `n ≥ 0`, all rows
but the last `|n|` when `n < 0`.  The source never validates `top_n`, so
both cases are reachable. -/
def pandasHead (n : Int) (l : List α) : List α :=
  if 0 ≤ n then l.take n.toNat else l.take (l.length - (-n).toNat)

/-- Models `identify_top_destinations`: for each visitor category of the
input frame, in `df['c_resid'].unique()` encounter order, the category's
rows of `country_totals`, sorted descending by total and cut to `top_n`
with `head`.  The source performs no validation of `top_n` whatsoever. -/
def identify_top_destinations (df : List CObs) (top_n : Int) :
    List (String × List TotalRow) :=
  (uniqueFirst (df.map (·.c_resid))).map fun t =>
    (t, pandasHead top_n
      (insertionSort leTotalDesc
        ((country_totals df).filter fun r => decide (r.c_resid = t))))

theorem mem_annotate {df : List Obs} {o : CObs} (ho : o ∈ annotate df) :
    ∃ a ∈ df, a.obs_value = some o.obs_value ∧ 0 ≤ o.obs_value ∧
      o.year = a.period.1 ∧ o.month = a.period.2 ∧ o.geo = a.geo ∧
      o.c_resid = a.c_resid := by
  obtain ⟨a, ha, hfa⟩ := List.mem_filterMap.mp ho
  refine ⟨a, ha, ?_⟩
  cases hv : a.obs_value with
  | none => rw [hv] at hfa; simp at hfa
  | some v =>
    rw [hv] at hfa
    by_cases h0 : 0 ≤ v
    · simp only [if_pos h0, Option.some.injEq] at hfa
      subst hfa
      exact ⟨rfl, h0, rfl, rfl, rfl, rfl⟩
    · simp only [if_neg h0] at hfa
      exact absurd hfa (by simp)

theorem annotate_value_nonneg {df : List Obs} {o : CObs} (ho : o ∈ annotate df) :
    0 ≤ o.obs_value := by
  obtain ⟨a, _, _, h0, _⟩ := mem_annotate ho
  exact h0

theorem clean_data_subset_annotate (df : List Obs) :
    ∀ o ∈ (clean_data df).1, o ∈ annotate df := by
  intro o ho
  unfold clean_data at ho
  by_cases h : completeYears df ≠ []
  · rw [if_pos h] at ho
    exact (List.mem_filter.mp ho).1
  · rw [if_neg h] at ho
    exact ho

theorem clean_data_value_nonneg {df : List Obs} {o : CObs}
    (ho : o ∈ (clean_data df).1) : 0 ≤ o.obs_value :=
  annotate_value_nonneg (clean_data_subset_annotate df o ho)

theorem mem_completeYears (df : List Obs) (y : Nat) :
    y ∈ completeYears df ↔ 12 ≤ yearRowCount (annotate df) y := by
  unfold completeYears
  rw [List.mem_filter]
  constructor
  · intro h
    exact of_decide_eq_true h.2
  · intro h
    refine ⟨?_, decide_eq_true h⟩
    have hpos : 0 < (annotate df).countP fun o => o.year = y := lt_of_lt_of_le (by norm_num) h
    obtain ⟨o, ho, hoy⟩ := List.countP_pos_iff.mp hpos
    rw [List.mem_dedup]
    exact List.mem_map.mpr ⟨o, ho, of_decide_eq_true hoy⟩

/-- Claim C2: `clean_data` marks a calendar year complete exactly when the
count of surviving observations of that year, summed over the whole dataset
(all entities and categories), is at least 12, and when at least one year
is complete the retained rows are exactly the surviving rows whose year is
complete — the per-entity twelve-month requirement of the source is
computed but commented out and never applied. -/
theorem c2_global_year_completeness (df : List Obs)
    (h : completeYears df ≠ []) :
    (∀ y, y ∈ completeYears df ↔ 12 ≤ yearRowCount (annotate df) y) ∧
    (clean_data df).1 =
      (annotate df).filter fun o =>
        decide (12 ≤ yearRowCount (annotate df) o.year) := by
  refine ⟨mem_completeYears df, ?_⟩
  unfold clean_data
  rw [if_pos h]
  apply List.filter_congr
  intro o _
  rw [decide_eq_decide]
  exact mem_completeYears df o.year

/-- Concrete instantiation of `c2_global_year_completeness`: twelve rows
covering all months of 2020 plus a lone 2019 row; 2020 is complete, 2019 is
not, and exactly the 2020 rows survive. -/
def exC2df : List Obs :=
  (List.range 12).map (fun m => ⟨"PL", (2020, m + 1), some 3, "Total"⟩) ++
    [⟨"PL", (2019, 12), some 4, "Total"⟩]

theorem c2_witness :
    (clean_data exC2df).1 =
      (annotate exC2df).filter fun o =>
        decide (12 ≤ yearRowCount (annotate exC2df) o.year) :=
  (c2_global_year_completeness exC2df (by decide)).2

/-- Claim C8 (amended): the no-complete-year fallback (retain every
surviving row, emit the warning) is taken exactly when no calendar year has
at least 12 surviving rows; in particular any input with fewer than 12
surviving rows in total takes it.  Fewer than 12 *distinct months* does not
imply the fallback — see `c8_counterexample`. -/
theorem c8_fallback_characterisation (df : List Obs) :
    ((clean_data df).2 = true ↔ completeYears df = []) ∧
    (completeYears df = [] →
      (clean_data df).1 = annotate df ∧ (clean_data df).2 = true) ∧
    ((annotate df).length < 12 →
      (clean_data df).1 = annotate df ∧ (clean_data df).2 = true) := by
  have hbranch : completeYears df = [] →
      (clean_data df).1 = annotate df ∧ (clean_data df).2 = true := by
    intro he
    unfold clean_data
    rw [if_neg (by simpa using he)]
    exact ⟨rfl, rfl⟩
  have hsmall : (annotate df).length < 12 → completeYears df = [] := by
    intro hlen
    rw [List.eq_nil_iff_forall_not_mem]
    intro y hy
    have h12 := (mem_completeYears df y).mp hy
    have hle : yearRowCount (annotate df) y ≤ (annotate df).length :=
      List.countP_le_length _
    omega
  refine ⟨?_, hbranch, fun hlen => hbranch (hsmall hlen)⟩
  constructor
  · intro htrue
    by_contra hne
    unfold clean_data at htrue
    rw [if_pos (by simpa using hne)] at htrue
    simp at htrue
  · intro he
    exact (hbranch he).2

/-- Input with a single surviving row: no year is complete, so the fallback
applies. -/
def exC8small : List Obs := [⟨"PL", (2021, 5), some 2, "Total"⟩]

theorem c8_witness :
    (clean_data exC8small).1 = annotate exC8small ∧
    (clean_data exC8small).2 = true :=
  (c8_fallback_characterisation exC8small).2.2 (by decide)

/-- Twelve observations all lying in January 2020: only one distinct month
is present, yet year 2020 has 12 surviving rows and is therefore complete. -/
def exC8df : List Obs :=
  [⟨"AT", (2020, 1), some 1, "Total"⟩, ⟨"BE", (2020, 1), some 1, "Total"⟩,
   ⟨"CZ", (2020, 1), some 1, "Total"⟩, ⟨"DE", (2020, 1), some 1, "Total"⟩,
   ⟨"DK", (2020, 1), some 1, "Total"⟩, ⟨"EE", (2020, 1), some 1, "Total"⟩,
   ⟨"ES", (2020, 1), some 1, "Total"⟩, ⟨"FI", (2020, 1), some 1, "Total"⟩,
   ⟨"FR", (2020, 1), some 1, "Total"⟩, ⟨"GR", (2020, 1), some 1, "Total"⟩,
   ⟨"HR", (2020, 1), some 1, "Total"⟩, ⟨"HU", (2020, 1), some 1, "Total"⟩]

theorem c8_counterexample :
    distinctMonthCount exC8df = 1 ∧ (clean_data exC8df).2 = false := by decide

/-- Claim C5: the load fails (pandas raises, no observation set is
produced) exactly when some row's period does not parse under strict
`YYYY-MM`, and on success every row survives, its value being the numeric
coercion of the raw value cell — a failed coercion yields a missing value,
never a load failure. -/
theorem c5_load_fatal_iff_bad_period (rows : List RawRow) :
    (load_data rows = none ↔ ∃ r ∈ rows, parsePeriod r.TIME_PERIOD = none) ∧
    (∀ out, load_data rows = some out →
      out.length = rows.length ∧
      out.map (·.obs_value) = rows.map fun r => toNumeric r.OBS_VALUE) := by
  induction rows with
  | nil =>
    constructor
    · simp [load_data]
    · intro out h
      simp only [load_data, Option.some.injEq] at h
      subst h
      simp
  | cons r rs ih =>
    cases hp : parsePeriod r.TIME_PERIOD with
    | none =>
      have heq : load_data (r :: rs) = none := by simp [load_data, hp]
      constructor
      · rw [heq]
        exact ⟨fun _ => ⟨r, List.mem_cons_self r rs, hp⟩, fun _ => rfl⟩
      · intro out h
        rw [heq] at h
        exact absurd h (by simp)
    | some p =>
      cases hl : load_data rs with
      | none =>
        have heq : load_data (r :: rs) = none := by simp [load_data, hp, hl]
        constructor
        · rw [heq]
          refine ⟨fun _ => ?_, fun _ => rfl⟩
          obtain ⟨a, ha, hpa⟩ := ih.1.mp hl
          exact ⟨a, List.mem_cons_of_mem r ha, hpa⟩
        · intro out h
          rw [heq] at h
          exact absurd h (by simp)
      | some rest =>
        have heq : load_data (r :: rs) =
            some (⟨r.geo, p, toNumeric r.OBS_VALUE, r.c_resid⟩ :: rest) := by
          simp [load_data, hp, hl]
        constructor
        · rw [heq]
          constructor
          · intro h; exact absurd h (by simp)
          · rintro ⟨a, ha, hpa⟩
            rcases List.mem_cons.mp ha with rfl | ha'
            · rw [hp] at hpa; exact absurd hpa (by simp)
            · exact absurd hl (by rw [ih.1.mpr ⟨a, ha', hpa⟩]; simp)
        · intro out h
          rw [heq] at h
          simp only [Option.some.injEq] at h
          subst h
          have h2 := ih.2 rest hl
          simp [h2.1, h2.2]

/-- One good row (with an unparseable value cell, which only becomes a
missing value) used to instantiate `c5_load_fatal_iff_bad_period`. -/
def exC5rows : List RawRow := [⟨"PL", "2020-01", "abc", "Total"⟩]

/-- The observation set `load_data` produces for `exC5rows`. -/
def exC5out : List Obs := [⟨"PL", (2020, 1), none, "Total"⟩]

theorem c5_witness :
    exC5out.length = exC5rows.length ∧
    exC5out.map (·.obs_value) = exC5rows.map fun r => toNumeric r.OBS_VALUE :=
  (c5_load_fatal_iff_bad_period exC5rows).2 exC5out (by decide)

theorem qmean_singleton (v : ℚ) : qmean [v] = v := by simp [qmean]

theorem sampleVarSq_singleton (v : ℚ) : sampleVarSq [v] = none := rfl

theorem mem_seasonKeys (df : List CObs) (k : String × Nat × String) :
    k ∈ seasonKeys df ↔
      ∃ o ∈ df, o.geo = k.1 ∧ o.month = k.2.1 ∧ o.c_resid = k.2.2 := by
  unfold seasonKeys
  rw [mem_insertionSort, List.mem_dedup, List.mem_map]
  constructor
  · rintro ⟨o, ho, rfl⟩
    exact ⟨o, ho, rfl, rfl, rfl⟩
  · rintro ⟨o, ho, h1, h2, h3⟩
    refine ⟨o, ho, ?_⟩
    obtain ⟨k1, k2, k3⟩ := k
    simp only at h1 h2 h3
    rw [h1, h2, h3]

theorem mem_analyze_seasonality (df : List CObs) (r : SeasonRec) :
    r ∈ analyze_seasonality df ↔
      (r.geo, r.month, r.c_resid) ∈ seasonKeys df ∧
      r.avg_nights = qmean (groupVals df r.geo r.month r.c_resid) ∧
      r.std_sq = sampleVarSq (groupVals df r.geo r.month r.c_resid) := by
  unfold analyze_seasonality
  rw [List.mem_map]
  constructor
  · rintro ⟨k, hk, rfl⟩
    exact ⟨hk, rfl, rfl⟩
  · rintro ⟨hk, h1, h2⟩
    refine ⟨(r.geo, r.month, r.c_resid), hk, ?_⟩
    obtain ⟨g, m, t, a, s⟩ := r
    simp only at h1 h2 ⊢
    rw [h1, h2]

theorem groupVals_nonempty_key {df : List CObs} {g : String} {m : Nat}
    {t : String} (h : groupVals df g m t ≠ []) :
    (g, m, t) ∈ seasonKeys df := by
  unfold groupVals at h
  have hf : df.filter (fun o => decide (o.geo = g ∧ o.month = m ∧ o.c_resid = t)) ≠ [] := by
    intro hnil
    rw [hnil] at h
    exact h rfl
  obtain ⟨o, ho⟩ := List.exists_mem_of_ne_nil _ hf
  have := List.mem_filter.mp ho
  obtain ⟨h1, h2, h3⟩ := of_decide_eq_true this.2
  exact (mem_seasonKeys df (g, m, t)).mpr ⟨o, this.1, h1, h2, h3⟩

/-- Claim C3 (amended): for every `(geo, month, c_resid)` group with exactly
one observation, the aggregator reports `mean_nights` equal to that single
value, but the sample standard deviation (pandas `ddof = 1`) of a single
sample is missing (NaN), not zero: the record's `std_sq` is `none`. -/
theorem c3_singleton_group (df : List CObs) (g : String) (m : Nat) (t : String)
    (v : ℚ) (h : groupVals df g m t = [v]) :
    (⟨g, m, t, v, none⟩ : SeasonRec) ∈ analyze_seasonality df ∧
    ∀ r ∈ analyze_seasonality df,
      r.geo = g → r.month = m → r.c_resid = t →
      r.avg_nights = v ∧ r.std_sq = none := by
  have hkey : (g, m, t) ∈ seasonKeys df :=
    groupVals_nonempty_key (by rw [h]; simp)
  constructor
  · refine (mem_analyze_seasonality df _).mpr ⟨hkey, ?_, ?_⟩
    · rw [h, qmean_singleton]
    · rw [h, sampleVarSq_singleton]
  · intro r hr h1 h2 h3
    obtain ⟨_, ha, hs⟩ := (mem_analyze_seasonality df r).mp hr
    rw [h1, h2, h3, h] at ha hs
    exact ⟨by rw [ha, qmean_singleton], by rw [hs, sampleVarSq_singleton]⟩

/-- A cleaned dataset whose single `(PL, 7, Total)` group has exactly one
observation, of value 7. -/
def exC3df : List CObs := [⟨"PL", (2020, 7), 7, "Total", 2020, 7⟩]

/-- Claim C3 counterexample: on a group with exactly one observation the
aggregator's standard deviation is missing (`none`, pandas NaN), not zero,
refuting "std_nights equal to zero (not undefined or missing)". -/
theorem c3_counterexample :
    groupVals exC3df "PL" 7 "Total" = [7] ∧
    (analyze_seasonality exC3df).map (·.std_sq) = [none] ∧
    (none : Option ℚ) ≠ some 0 := by decide

theorem c3_witness :
    (⟨"PL", 7, "Total", 7, none⟩ : SeasonRec) ∈ analyze_seasonality exC3df :=
  (c3_singleton_group exC3df "PL" 7 "Total" 7 (by decide)).1

theorem qListMax_spec :
    ∀ (l : List ℚ) (m : ℚ), qListMax l = some m → m ∈ l ∧ ∀ y ∈ l, y ≤ m := by
  intro l
  induction l with
  | nil => intro m h; simp [qListMax] at h
  | cons x xs ih =>
    intro m h
    cases xs with
    | nil =>
      simp only [qListMax, Option.some.injEq] at h
      subst h
      exact ⟨List.mem_singleton_self x, by intro y hy; simp at hy; rw [hy]⟩
    | cons y t =>
      simp only [qListMax, Option.map_eq_some'] at h
      obtain ⟨m', hm', rfl⟩ := h
      obtain ⟨hmem, hle⟩ := ih m' hm'
      constructor
      · rcases le_total x m' with hx | hx
        · rw [max_eq_right hx]
          exact List.mem_cons_of_mem x hmem
        · rw [max_eq_left hx]
          exact List.mem_cons_self x (y :: t)
      · intro z hz
        rcases List.mem_cons.mp hz with rfl | hz'
        · exact le_max_left z m'
        · exact le_trans (hle z hz') (le_max_right x m')

theorem qListMin_spec :
    ∀ (l : List ℚ) (m : ℚ), qListMin l = some m → m ∈ l ∧ ∀ y ∈ l, m ≤ y := by
  intro l
  induction l with
  | nil => intro m h; simp [qListMin] at h
  | cons x xs ih =>
    intro m h
    cases xs with
    | nil =>
      simp only [qListMin, Option.some.injEq] at h
      subst h
      exact ⟨List.mem_singleton_self x, by intro y hy; simp at hy; rw [hy]⟩
    | cons y t =>
      simp only [qListMin, Option.map_eq_some'] at h
      obtain ⟨m', hm', rfl⟩ := h
      obtain ⟨hmem, hle⟩ := ih m' hm'
      constructor
      · rcases le_total x m' with hx | hx
        · rw [min_eq_left hx]
          exact List.mem_cons_self x (y :: t)
        · rw [min_eq_right hx]
          exact List.mem_cons_of_mem x hmem
      · intro z hz
        rcases List.mem_cons.mp hz with rfl | hz'
        · exact min_le_left z m'
        · exact le_trans (min_le_right x m') (hle z hz')

theorem qListMax_ne_none : ∀ (x : ℚ) (xs : List ℚ), qListMax (x :: xs) ≠ none := by
  intro x xs
  induction xs generalizing x with
  | nil => simp [qListMax]
  | cons y t ih =>
    simp only [qListMax]
    cases hq : qListMax (y :: t) with
    | none => exact absurd hq (ih y)
    | some m => simp

theorem qListMin_ne_none : ∀ (x : ℚ) (xs : List ℚ), qListMin (x :: xs) ≠ none := by
  intro x xs
  induction xs generalizing x with
  | nil => simp [qListMin]
  | cons y t ih =>
    simp only [qListMin]
    cases hq : qListMin (y :: t) with
    | none => exact absurd hq (ih y)
    | some m => simp

theorem qListMax_isSome {l : List ℚ} (h : l ≠ []) : ∃ m, qListMax l = some m := by
  cases l with
  | nil => exact absurd rfl h
  | cons x xs =>
    cases hq : qListMax (x :: xs) with
    | none => exact absurd hq (qListMax_ne_none x xs)
    | some m => exact ⟨m, rfl⟩

theorem qListMin_isSome {l : List ℚ} (h : l ≠ []) : ∃ m, qListMin l = some m := by
  cases l with
  | nil => exact absurd rfl h
  | cons x xs =>
    cases hq : qListMin (x :: xs) with
    | none => exact absurd hq (qListMin_ne_none x xs)
    | some m => exact ⟨m, rfl⟩

theorem idxmaxAvg_eq_none_iff (l : List SeasonRec) : idxmaxAvg l = none ↔ l = [] := by
  cases l with
  | nil => simp [idxmaxAvg]
  | cons r rs =>
    simp only [idxmaxAvg]
    cases idxmaxAvg rs with
    | none => simp
    | some m =>
      by_cases h : r.avg_nights < m.avg_nights <;> simp [h]

theorem idxmaxAvg_cons_none {rs : List SeasonRec} (r : SeasonRec)
    (h : idxmaxAvg rs = none) : idxmaxAvg (r :: rs) = some r := by
  simp [idxmaxAvg, h]

theorem idxmaxAvg_cons_some {rs : List SeasonRec} {m : SeasonRec} (r : SeasonRec)
    (h : idxmaxAvg rs = some m) :
    idxmaxAvg (r :: rs) =
      if r.avg_nights < m.avg_nights then some m else some r := by
  simp [idxmaxAvg, h]

theorem idxmaxAvg_spec :
    ∀ (l : List SeasonRec) (m : SeasonRec), idxmaxAvg l = some m →
      m ∈ l ∧ ∀ r ∈ l, r.avg_nights ≤ m.avg_nights := by
  intro l
  induction l with
  | nil => intro m h; simp [idxmaxAvg] at h
  | cons r rs ih =>
    intro m h
    cases hrs : idxmaxAvg rs with
    | none =>
      rw [idxmaxAvg_cons_none r hrs] at h
      cases h
      have hnil : rs = [] := (idxmaxAvg_eq_none_iff rs).mp hrs
      subst hnil
      exact ⟨List.mem_singleton_self _, by intro x hx; simp at hx; rw [hx]⟩
    | some m' =>
      rw [idxmaxAvg_cons_some r hrs] at h
      obtain ⟨hmem', hle'⟩ := ih m' hrs
      by_cases hcmp : r.avg_nights < m'.avg_nights
      · rw [if_pos hcmp] at h
        cases h
        constructor
        · exact List.mem_cons_of_mem r hmem'
        · intro x hx
          rcases List.mem_cons.mp hx with rfl | hx'
          · exact le_of_lt hcmp
          · exact hle' x hx'
      · rw [if_neg hcmp] at h
        cases h
        constructor
        · exact List.mem_cons_self _ rs
        · intro x hx
          rcases List.mem_cons.mp hx with rfl | hx'
          · exact le_refl _
          · exact le_trans (hle' x hx') (le_of_not_lt hcmp)

theorem idxminAvg_eq_none_iff (l : List SeasonRec) : idxminAvg l = none ↔ l = [] := by
  cases l with
  | nil => simp [idxminAvg]
  | cons r rs =>
    simp only [idxminAvg]
    cases idxminAvg rs with
    | none => simp
    | some m =>
      by_cases h : m.avg_nights < r.avg_nights <;> simp [h]

theorem idxminAvg_cons_none {rs : List SeasonRec} (r : SeasonRec)
    (h : idxminAvg rs = none) : idxminAvg (r :: rs) = some r := by
  simp [idxminAvg, h]

theorem idxminAvg_cons_some {rs : List SeasonRec} {m : SeasonRec} (r : SeasonRec)
    (h : idxminAvg rs = some m) :
    idxminAvg (r :: rs) =
      if m.avg_nights < r.avg_nights then some m else some r := by
  simp [idxminAvg, h]

theorem idxminAvg_spec :
    ∀ (l : List SeasonRec) (m : SeasonRec), idxminAvg l = some m →
      m ∈ l ∧ ∀ r ∈ l, m.avg_nights ≤ r.avg_nights := by
  intro l
  induction l with
  | nil => intro m h; simp [idxminAvg] at h
  | cons r rs ih =>
    intro m h
    cases hrs : idxminAvg rs with
    | none =>
      rw [idxminAvg_cons_none r hrs] at h
      cases h
      have hnil : rs = [] := (idxminAvg_eq_none_iff rs).mp hrs
      subst hnil
      exact ⟨List.mem_singleton_self _, by intro x hx; simp at hx; rw [hx]⟩
    | some m' =>
      rw [idxminAvg_cons_some r hrs] at h
      obtain ⟨hmem', hle'⟩ := ih m' hrs
      by_cases hcmp : m'.avg_nights < r.avg_nights
      · rw [if_pos hcmp] at h
        cases h
        constructor
        · exact List.mem_cons_of_mem r hmem'
        · intro x hx
          rcases List.mem_cons.mp hx with rfl | hx'
          · exact le_of_lt hcmp
          · exact hle' x hx'
      · rw [if_neg hcmp] at h
        cases h
        constructor
        · exact List.mem_cons_self _ rs
        · intro x hx
          rcases List.mem_cons.mp hx with rfl | hx'
          · exact le_refl _
          · exact le_trans (le_of_not_lt hcmp) (hle' x hx')

theorem qmean_nonneg {xs : List ℚ} (h : ∀ x ∈ xs, 0 ≤ x) : 0 ≤ qmean xs := by
  unfold qmean
  apply div_nonneg (List.sum_nonneg h)
  exact_mod_cast Nat.zero_le xs.length

theorem groupVals_nonneg {df : List Obs} {g : String} {m : Nat} {t : String} :
    ∀ x ∈ groupVals (clean_data df).1 g m t, 0 ≤ x := by
  intro x hx
  unfold groupVals at hx
  obtain ⟨o, ho, rfl⟩ := List.mem_map.mp hx
  exact clean_data_value_nonneg (List.mem_filter.mp ho).1

theorem analyze_clean_avg_nonneg {df : List Obs} {r : SeasonRec}
    (hr : r ∈ analyze_seasonality (clean_data df).1) : 0 ≤ r.avg_nights := by
  obtain ⟨_, ha, _⟩ := (mem_analyze_seasonality _ r).mp hr
  rw [ha]
  exact qmean_nonneg groupVals_nonneg

theorem idxmaxAvg_singleton (r : SeasonRec) : idxmaxAvg [r] = some r := by
  simp [idxmaxAvg]

theorem idxminAvg_singleton (r : SeasonRec) : idxminAvg [r] = some r := by
  simp [idxminAvg]

/-- Claim C1 (amended): for every `(entity, visitor_category)` pair present
in the pipeline's seasonality output, the batch surfaces (commentary and
seasonality plot) report an index that is always ≥ 1 — max over min of the
nonnegative monthly means, with 1.0 substituted when the minimum is 0 — but
the desktop surface substitutes 0, not 1.0, when the minimal monthly mean
is not positive, so the index it reports is either 0 (degenerate case) or
≥ 1; the ≥ 1 invariant does not hold on that surface. -/
theorem c1_index_by_surface (df : List Obs) (g t : String)
    (h : sliceFor (analyze_seasonality (clean_data df).1) g t ≠ []) :
    (∃ i, commentary_seasonality_index
        (analyze_seasonality (clean_data df).1) g t = some i ∧ 1 ≤ i) ∧
    (∃ j, display_seasonality_index
        (analyze_seasonality (clean_data df).1) g t = some j ∧
        (j = 0 ∨ 1 ≤ j)) := by
  have hnn : ∀ r ∈ sliceFor (analyze_seasonality (clean_data df).1) g t,
      0 ≤ r.avg_nights := by
    intro r hr
    exact analyze_clean_avg_nonneg (List.mem_filter.mp hr).1
  constructor
  · have hmapne :
        (sliceFor (analyze_seasonality (clean_data df).1) g t).map
          (·.avg_nights) ≠ [] := by
      simpa using h
    obtain ⟨mx, hmx⟩ := qListMax_isSome hmapne
    obtain ⟨mn, hmn⟩ := qListMin_isSome hmapne
    have hspecx := qListMax_spec _ mx hmx
    have hspecn := qListMin_spec _ mn hmn
    have hmn0 : 0 ≤ mn := by
      obtain ⟨r, hr, hrv⟩ := List.mem_map.mp hspecn.1
      rw [← hrv]
      exact hnn r hr
    have hmnmx : mn ≤ mx := hspecx.2 mn hspecn.1
    refine ⟨if mn = 0 then 1 else mx / mn, ?_, ?_⟩
    · unfold commentary_seasonality_index
      rw [hmx, hmn]
    · by_cases h0 : mn = 0
      · rw [if_pos h0]
      · rw [if_neg h0]
        exact (one_le_div (lt_of_le_of_ne hmn0 (Ne.symm h0))).mpr hmnmx
  · cases hix : idxmaxAvg (sliceFor (analyze_seasonality (clean_data df).1) g t) with
    | none => exact absurd ((idxmaxAvg_eq_none_iff _).mp hix) h
    | some mx =>
      cases hin : idxminAvg (sliceFor (analyze_seasonality (clean_data df).1) g t) with
      | none => exact absurd ((idxminAvg_eq_none_iff _).mp hin) h
      | some mn =>
        have hsx := idxmaxAvg_spec _ mx hix
        have hsn := idxminAvg_spec _ mn hin
        have hmn0 : 0 ≤ mn.avg_nights := hnn mn hsn.1
        have hle : mn.avg_nights ≤ mx.avg_nights := hsn.2 mx hsx.1
        refine ⟨if 0 < mn.avg_nights then mx.avg_nights / mn.avg_nights else 0,
          ?_, ?_⟩
        · unfold display_seasonality_index
          rw [hix, hin]
        · by_cases h0 : 0 < mn.avg_nights
          · rw [if_pos h0]
            right
            exact (one_le_div h0).mpr hle
          · rw [if_neg h0]
            left
            rfl

/-- A raw set with one surviving observation of value 0: the `(PL, Total)`
pair's only monthly mean is 0. -/
def exC1df : List Obs := [⟨"PL", (2020, 1), some 0, "Total"⟩]

/-- Claim C1 counterexample: on `exC1df` the desktop surface
(`display_statistics`) reports a seasonality index of 0 for `(PL, Total)`
— the minimal monthly mean is 0 and the code substitutes 0, not 1.0 — so
`index ≥ 1.0` fails on that surface. -/
theorem c1_counterexample :
    display_seasonality_index
      (analyze_seasonality (clean_data exC1df).1) "PL" "Total" = some 0 ∧
    ¬(1 ≤ (0 : ℚ)) := by
  have hclean : (clean_data exC1df).1 = [⟨"PL", (2020, 1), 0, "Total", 2020, 1⟩] := by
    decide
  have hkeys : seasonKeys [(⟨"PL", (2020, 1), 0, "Total", 2020, 1⟩ : CObs)] =
      [("PL", 1, "Total")] := by decide
  have hgv : groupVals [(⟨"PL", (2020, 1), 0, "Total", 2020, 1⟩ : CObs)] "PL" 1 "Total"
      = [0] := by decide
  have hseas : analyze_seasonality [(⟨"PL", (2020, 1), 0, "Total", 2020, 1⟩ : CObs)] =
      [⟨"PL", 1, "Total", qmean [0], sampleVarSq [0]⟩] := by
    unfold analyze_seasonality
    rw [hkeys]
    simp only [List.map_cons, List.map_nil]
    rw [hgv]
  have hslice : sliceFor [(⟨"PL", 1, "Total", qmean [0], sampleVarSq [0]⟩ : SeasonRec)]
      "PL" "Total" = [⟨"PL", 1, "Total", qmean [0], sampleVarSq [0]⟩] := by
    unfold sliceFor
    simp
  constructor
  · rw [hclean, hseas]
    unfold display_seasonality_index
    rw [hslice, idxmaxAvg_singleton, idxminAvg_singleton]
    dsimp only
    rw [qmean_singleton]
    rw [if_neg (lt_irrefl (0 : ℚ))]
  · norm_num

theorem c1_witness :
    (∃ i, commentary_seasonality_index
        (analyze_seasonality (clean_data exC1df).1) "PL" "Total" = some i ∧
        1 ≤ i) ∧
    (∃ j, display_seasonality_index
        (analyze_seasonality (clean_data exC1df).1) "PL" "Total" = some j ∧
        (j = 0 ∨ 1 ≤ j)) :=
  c1_index_by_surface exC1df "PL" "Total" (by decide)

theorem seasonKeys_pairwise (df : List CObs) :
    (seasonKeys df).Pairwise fun a b =>
      keyLe3 a b = true ∧ (keyLe3 b a = true → a ≠ b) := by
  unfold seasonKeys
  exact pairwise_insertionSort keyLe3 Ne keyLe3_total keyLe3_trans _
    (List.nodup_dedup _)

/-- Within one `(geo, c_resid)` slice of the seasonality frame the months
are strictly increasing: the frame is emitted in lexicographic
`(geo, month, c_resid)` key order. -/
theorem slice_months_strict (df : List CObs) (g t : String) :
    (sliceFor (analyze_seasonality df) g t).Pairwise
      fun a b => a.month < b.month := by
  have h2 : (analyze_seasonality df).Pairwise fun r s =>
      keyLe3 (r.geo, r.month, r.c_resid) (s.geo, s.month, s.c_resid) = true ∧
      (keyLe3 (s.geo, s.month, s.c_resid) (r.geo, r.month, r.c_resid) = true →
        (r.geo, r.month, r.c_resid) ≠ (s.geo, s.month, s.c_resid)) := by
    unfold analyze_seasonality
    exact (seasonKeys_pairwise df).map _ fun k k' hk => hk
  have h3 := h2.filter (fun r => decide (r.geo = g ∧ r.c_resid = t))
  refine List.Pairwise.imp_of_mem ?_ h3
  intro a b ha hb hab
  obtain ⟨hag, hat⟩ := of_decide_eq_true (List.mem_filter.mp ha).2
  obtain ⟨hbg, hbt⟩ := of_decide_eq_true (List.mem_filter.mp hb).2
  by_cases hm : a.month = b.month
  · exfalso
    have hkeq : (a.geo, a.month, a.c_resid) = (b.geo, b.month, b.c_resid) := by
      rw [hag, hat, hbg, hbt, hm]
    exact hab.2 (by rw [hkeq]; exact keyLe3_refl _) hkeq
  · have h := hab.1
    unfold keyLe3 at h
    rw [if_pos (show a.geo = b.geo by rw [hag, hbg])] at h
    rw [if_neg hm] at h
    exact of_decide_eq_true h

theorem idxmaxAvg_first_month :
    ∀ l : List SeasonRec, l.Pairwise (fun a b => a.month < b.month) →
      ∀ m, idxmaxAvg l = some m →
      ∀ r ∈ l, r.avg_nights = m.avg_nights → m.month ≤ r.month := by
  intro l
  induction l with
  | nil => intro _ m h; simp [idxmaxAvg] at h
  | cons a rs ih =>
    intro hp m h r hr havg
    rw [List.pairwise_cons] at hp
    cases hrs : idxmaxAvg rs with
    | none =>
      rw [idxmaxAvg_cons_none a hrs] at h
      cases h
      have hnil : rs = [] := (idxmaxAvg_eq_none_iff rs).mp hrs
      subst hnil
      simp at hr
      rw [hr]
    | some m' =>
      rw [idxmaxAvg_cons_some a hrs] at h
      by_cases hcmp : a.avg_nights < m'.avg_nights
      · rw [if_pos hcmp] at h
        cases h
        rcases List.mem_cons.mp hr with rfl | hr'
        · exact absurd havg (ne_of_lt hcmp)
        · exact ih hp.2 m hrs r hr' havg
      · rw [if_neg hcmp] at h
        cases h
        rcases List.mem_cons.mp hr with rfl | hr'
        · exact le_refl _
        · exact le_of_lt (hp.1 r hr')

theorem idxminAvg_first_month :
    ∀ l : List SeasonRec, l.Pairwise (fun a b => a.month < b.month) →
      ∀ m, idxminAvg l = some m →
      ∀ r ∈ l, r.avg_nights = m.avg_nights → m.month ≤ r.month := by
  intro l
  induction l with
  | nil => intro _ m h; simp [idxminAvg] at h
  | cons a rs ih =>
    intro hp m h r hr havg
    rw [List.pairwise_cons] at hp
    cases hrs : idxminAvg rs with
    | none =>
      rw [idxminAvg_cons_none a hrs] at h
      cases h
      have hnil : rs = [] := (idxminAvg_eq_none_iff rs).mp hrs
      subst hnil
      simp at hr
      rw [hr]
    | some m' =>
      rw [idxminAvg_cons_some a hrs] at h
      by_cases hcmp : m'.avg_nights < a.avg_nights
      · rw [if_pos hcmp] at h
        cases h
        rcases List.mem_cons.mp hr with rfl | hr'
        · exact absurd havg.symm (ne_of_lt hcmp)
        · exact ih hp.2 m hrs r hr' havg
      · rw [if_neg hcmp] at h
        cases h
        rcases List.mem_cons.mp hr with rfl | hr'
        · exact le_refl _
        · exact le_of_lt (hp.1 r hr')

/-- Claim C7: for every `(geo, c_resid)` pair with data, asking for the
month of the highest (or lowest) mean via `idxmax` (`idxmin`) — as both
`analyze_seasonality`'s summary and the desktop app do — returns a single
row attaining the extreme mean whose month number is the smallest among all
tied months, because the slice is emitted month-ascending and `idxmax`
returns the first occurrence. -/
theorem c7_extreme_month_tiebreak (df : List CObs) (g t : String)
    (h : sliceFor (analyze_seasonality df) g t ≠ []) :
    (∃ mx, idxmaxAvg (sliceFor (analyze_seasonality df) g t) = some mx ∧
      mx ∈ sliceFor (analyze_seasonality df) g t ∧
      (∀ r ∈ sliceFor (analyze_seasonality df) g t,
        r.avg_nights ≤ mx.avg_nights) ∧
      (∀ r ∈ sliceFor (analyze_seasonality df) g t,
        r.avg_nights = mx.avg_nights → mx.month ≤ r.month)) ∧
    (∃ mn, idxminAvg (sliceFor (analyze_seasonality df) g t) = some mn ∧
      mn ∈ sliceFor (analyze_seasonality df) g t ∧
      (∀ r ∈ sliceFor (analyze_seasonality df) g t,
        mn.avg_nights ≤ r.avg_nights) ∧
      (∀ r ∈ sliceFor (analyze_seasonality df) g t,
        r.avg_nights = mn.avg_nights → mn.month ≤ r.month)) := by
  have hmono := slice_months_strict df g t
  constructor
  · cases hix : idxmaxAvg (sliceFor (analyze_seasonality df) g t) with
    | none => exact absurd ((idxmaxAvg_eq_none_iff _).mp hix) h
    | some mx =>
      obtain ⟨hmem, hle⟩ := idxmaxAvg_spec _ mx hix
      exact ⟨mx, rfl, hmem, hle, idxmaxAvg_first_month _ hmono mx hix⟩
  · cases hin : idxminAvg (sliceFor (analyze_seasonality df) g t) with
    | none => exact absurd ((idxminAvg_eq_none_iff _).mp hin) h
    | some mn =>
      obtain ⟨hmem, hle⟩ := idxminAvg_spec _ mn hin
      exact ⟨mn, rfl, hmem, hle, idxminAvg_first_month _ hmono mn hin⟩

/-- A cleaned dataset in which months 1 and 2 of `(PL, Total)` tie on the
mean, to instantiate the tie-break theorem. -/
def exC7df : List CObs :=
  [⟨"PL", (2020, 1), 4, "Total", 2020, 1⟩,
   ⟨"PL", (2020, 2), 4, "Total", 2020, 2⟩]

theorem c7_witness :
    (∃ mx, idxmaxAvg (sliceFor (analyze_seasonality exC7df) "PL" "Total") = some mx ∧
      mx ∈ sliceFor (analyze_seasonality exC7df) "PL" "Total" ∧
      (∀ r ∈ sliceFor (analyze_seasonality exC7df) "PL" "Total",
        r.avg_nights ≤ mx.avg_nights) ∧
      (∀ r ∈ sliceFor (analyze_seasonality exC7df) "PL" "Total",
        r.avg_nights = mx.avg_nights → mx.month ≤ r.month)) ∧
    (∃ mn, idxminAvg (sliceFor (analyze_seasonality exC7df) "PL" "Total") = some mn ∧
      mn ∈ sliceFor (analyze_seasonality exC7df) "PL" "Total" ∧
      (∀ r ∈ sliceFor (analyze_seasonality exC7df) "PL" "Total",
        mn.avg_nights ≤ r.avg_nights) ∧
      (∀ r ∈ sliceFor (analyze_seasonality exC7df) "PL" "Total",
        r.avg_nights = mn.avg_nights → mn.month ≤ r.month)) :=
  c7_extreme_month_tiebreak exC7df "PL" "Total" (by decide)

/-- Every sorted arrangement of the filtered totals is non-increasing in
`total`; this and the facts used for C9 (length, membership) are the
consequences of `sort_values` that do not depend on the sort kind, which is
all the source guarantees (its default `kind='quicksort'` is unstable, so
ties among equal totals come out in no specified order). -/
theorem ranked_rows_sorted (df : List CObs) (t : String) :
    (insertionSort leTotalDesc
      ((country_totals df).filter fun r => decide (r.c_resid = t))).Pairwise
      fun a b => b.total ≤ a.total := by
  have htriv : ((country_totals df).filter fun r =>
      decide (r.c_resid = t)).Pairwise fun _ _ => True := by
    induction ((country_totals df).filter fun r => decide (r.c_resid = t)) with
    | nil => exact List.Pairwise.nil
    | cons x xs ih => exact List.pairwise_cons.mpr ⟨fun _ _ => trivial, ih⟩
  have h := pairwise_insertionSort leTotalDesc (fun _ _ => True)
    (fun a b => by
      unfold leTotalDesc
      rcases le_total b.total a.total with h' | h'
      · exact Or.inl (decide_eq_true h')
      · exact Or.inr (decide_eq_true h'))
    (fun a b c hab hbc => by
      unfold leTotalDesc at hab hbc ⊢
      exact decide_eq_true
        (le_trans (of_decide_eq_true hbc) (of_decide_eq_true hab)))
    _ htriv
  refine h.imp ?_
  intro a b hab
  exact of_decide_eq_true hab.1

/-- Claim C6 (amended): within each visitor category the ranking's
`total_nights` sequence is non-increasing; entities with equal totals are
NOT guaranteed to appear in their original encounter order — the totals
table is produced by a key-sorting groupby that discards encounter order
before the sort runs (see `c6_counterexample`), and the sort itself
(`sort_values` with its default unstable `kind='quicksort'`) guarantees no
particular tie order either, so only the non-increasing invariant holds. -/
theorem c6_ranking_order (df : List CObs) (n : Int) :
    (identify_top_destinations df n).Forall fun p =>
      p.2.Pairwise fun a b => b.total ≤ a.total := by
  rw [List.forall_iff_forall_mem]
  intro p hp
  obtain ⟨t, _, rfl⟩ := List.mem_map.mp hp
  refine (ranked_rows_sorted df t).sublist ?_
  unfold pandasHead
  by_cases h0 : 0 ≤ n
  · rw [if_pos h0]; exact List.take_sublist _ _
  · rw [if_neg h0]; exact List.take_sublist _ _

/-- Two entities with equal totals, encountered in the order `B`, `A`. -/
def exC6df : List CObs :=
  [⟨"B", (2020, 1), 5, "Total", 2020, 1⟩,
   ⟨"A", (2020, 1), 5, "Total", 2020, 1⟩]

/-- Claim C6 counterexample: the input encounters `B` before `A`, both with
total 5, but the ranking lists `A` before `B` — the key-sorting groupby
already ordered the totals table lexicographically, so ties do not appear
in original encounter order. -/
theorem c6_counterexample :
    exC6df.map (·.geo) = ["B", "A"] ∧
    (identify_top_destinations exC6df 10).map
        (fun p => (p.1, p.2.map fun r => (r.geo, r.total))) =
      [("Total", [("A", 5), ("B", 5)])] := by
  have hd : (exC6df.map fun o => (o.geo, o.c_resid)).dedup =
      [("B", "Total"), ("A", "Total")] := by decide
  have hs : insertionSort keyLe2 [("B", "Total"), ("A", "Total")] =
      [("A", "Total"), ("B", "Total")] := by decide
  have hfA : ((exC6df.filter fun o =>
      decide (o.geo = "A" ∧ o.c_resid = "Total")).map (·.obs_value)) = [5] := by
    decide
  have hfB : ((exC6df.filter fun o =>
      decide (o.geo = "B" ∧ o.c_resid = "Total")).map (·.obs_value)) = [5] := by
    decide
  have hct : country_totals exC6df =
      [⟨"A", "Total", 5⟩, ⟨"B", "Total", 5⟩] := by
    unfold country_totals
    rw [hd, hs]
    simp only [List.map_cons, List.map_nil]
    rw [hfA, hfB]
    norm_num
  have hflt : ([(⟨"A", "Total", 5⟩ : TotalRow), ⟨"B", "Total", 5⟩].filter
      fun r => decide (r.c_resid = "Total")) =
      [⟨"A", "Total", 5⟩, ⟨"B", "Total", 5⟩] := by decide
  have hsort : insertionSort leTotalDesc
      [(⟨"A", "Total", 5⟩ : TotalRow), ⟨"B", "Total", 5⟩] =
      [⟨"A", "Total", 5⟩, ⟨"B", "Total", 5⟩] := by decide
  have huniq : uniqueFirst (exC6df.map (·.c_resid)) = ["Total"] := by decide
  refine ⟨by decide, ?_⟩
  unfold identify_top_destinations
  rw [huniq]
  simp only [List.map_cons, List.map_nil]
  rw [hct, hflt, hsort]
  decide

/-- Claim C4 (amended): `identify_top_destinations` performs no validation
of `top_n` at all; invoked with `N = 0` it silently returns one entry per
visitor category whose ranking is empty (`head(0)`), instead of rejecting
the call — and a negative `N` would likewise be passed straight to
pandas `head`. -/
theorem c4_zero_not_rejected (df : List CObs) :
    identify_top_destinations df 0 =
      (uniqueFirst (df.map (·.c_resid))).map fun t => (t, ([] : List TotalRow)) := by
  unfold identify_top_destinations
  apply List.map_congr_left
  intro t _
  simp [pandasHead]

def exC4df : List CObs := [⟨"PL", (2020, 1), 6, "Total", 2020, 1⟩]

/-- Claim C4 counterexample: invoked with `N = 0` on a nonempty dataset the
engine produces a normal result — a mapping with an empty ranking for the
category — rather than rejecting the call as an invalid-parameter error. -/
theorem c4_counterexample :
    identify_top_destinations exC4df 0 = [("Total", [])] := by decide

theorem filter_map_keys (df : List CObs) (t : String) :
    ((df.map fun o => (o.geo, o.c_resid)).filter fun k => decide (k.2 = t)) =
      (df.filter fun o => decide (o.c_resid = t)).map fun o => (o.geo, t) := by
  induction df with
  | nil => rfl
  | cons o df' ih =>
    by_cases h : o.c_resid = t
    · simp [List.filter_cons, h, ih]
    · simp [List.filter_cons, h, ih]

theorem dedup_filter_perm {α : Type} [DecidableEq α] (l : List α) (p : α → Bool) :
    List.Perm (l.dedup.filter p) (l.filter p).dedup := by
  apply List.perm_of_nodup_nodup_toFinset_eq
  · exact (List.nodup_dedup l).filter p
  · exact List.nodup_dedup _
  · apply List.toFinset.ext
    intro x
    simp only [List.mem_filter, List.mem_dedup]

/-- The number of `(geo, c_resid)` groups of one category equals the number
of distinct entities having data for that category. -/
theorem distinct_entities_count (df : List CObs) (t : String) :
    (((df.map fun o => (o.geo, o.c_resid)).dedup).filter
        fun k => decide (k.2 = t)).length =
      (((df.filter fun o => decide (o.c_resid = t)).map (·.geo)).dedup).length := by
  rw [(dedup_filter_perm _ _).length_eq, filter_map_keys df t]
  have hmm : ((df.filter fun o => decide (o.c_resid = t)).map fun o => (o.geo, t)) =
      (((df.filter fun o => decide (o.c_resid = t)).map (·.geo)).map
        fun g => (g, t)) := by
    rw [List.map_map]
    rfl
  have hinj : Function.Injective fun g : String => (g, t) := by
    intro a b hab
    simpa using congrArg Prod.fst hab
  rw [hmm, List.dedup_map_of_injective hinj, List.length_map]

/-- Claim C9: for every cleaned dataset and every valid `N ≥ 1` the ranking
engine returns one entry per distinct visitor category, in encounter order,
each holding exactly `min N (number of distinct entities with data for that
category)` rows — no padding — and the empty dataset yields an empty
mapping rather than an error. -/
theorem c9_topn_shape (df : List CObs) (n : Int) (h : 1 ≤ n) :
    ((identify_top_destinations df n).map Prod.fst =
      uniqueFirst (df.map (·.c_resid))) ∧
    (∀ p ∈ identify_top_destinations df n,
      p.2.length = min n.toNat
        (((df.filter fun o => decide (o.c_resid = p.1)).map
          (·.geo)).dedup.length)) ∧
    identify_top_destinations [] n = [] := by
  refine ⟨?_, ?_, rfl⟩
  · unfold identify_top_destinations
    rw [List.map_map]
    exact List.map_id _
  · intro p hp
    obtain ⟨t, _, rfl⟩ := List.mem_map.mp hp
    show (pandasHead n _).length = _
    unfold pandasHead
    rw [if_pos (le_trans (by norm_num) h)]
    rw [List.length_take]
    congr 1
    rw [(perm_insertionSort leTotalDesc _).length_eq]
    unfold country_totals
    rw [List.filter_map, List.length_map]
    rw [((perm_insertionSort keyLe2 _).filter _).length_eq]
    exact distinct_entities_count df t

/-- Three entities with data for category `Total`. -/
def exC9df : List CObs :=
  [⟨"AT", (2020, 1), 2, "Total", 2020, 1⟩,
   ⟨"BE", (2020, 1), 3, "Total", 2020, 1⟩,
   ⟨"CZ", (2020, 1), 4, "Total", 2020, 1⟩]

theorem c9_witness :
    ((identify_top_destinations exC9df 10).map Prod.fst =
      uniqueFirst (exC9df.map (·.c_resid))) ∧
    identify_top_destinations [] 10 = [] :=
  ⟨(c9_topn_shape exC9df 10 (by decide)).1,
    (c9_topn_shape exC9df 10 (by decide)).2.2⟩

/-- A row of the frame `clean_data` manipulates: the four loaded columns
plus the derived `year`/`month` columns, absent (`none`) until the
corresponding column assignment of lines 73–74 has run. -/
structure FrameRow where
  geo : String
  period : Nat × Nat
  obs_value : Option ℚ
  c_resid : String
  year : Option Nat
  month : Option Nat
deriving DecidableEq, Repr

/-- A pandas DataFrame value as `clean_data` sees it. -/
abbrev Frame := List FrameRow

/-- A store of frame objects; a DataFrame variable holds an index into it.
Operations pandas performs in place (column assignment) write through the
index; operations that build new frames allocate a fresh object. -/
structure PdState where
  heap : List Frame
deriving Repr

/-- The frame object a reference designates. -/
def readF (s : PdState) (r : Nat) : Frame := (s.heap[r]?).getD []

/-- Allocates a new frame object; its reference is `newRef s`. -/
def alloc (s : PdState) (f : Frame) : PdState := ⟨s.heap ++ [f]⟩

/-- The reference of the object allocated by the next `alloc`. -/
def newRef (s : PdState) : Nat := s.heap.length

/-- Overwrites the frame object at `r` in place (what a pandas column
assignment does to the frame a variable is bound to). -/
def writeF (s : PdState) (r : Nat) (f : Frame) : PdState := ⟨s.heap.set r f⟩

/-- Line 67 without the `.copy()`: `df.dropna(subset=['OBS_VALUE'])`,
a new frame keeping the rows whose value is present. -/
def dropnaObs (f : Frame) : Frame := f.filter fun r => r.obs_value.isSome

/-- Line 70: `df_clean[df_clean['OBS_VALUE'] >= 0]`, a new frame keeping
the nonnegative values. -/
def maskNonneg (f : Frame) : Frame :=
  f.filter fun r =>
    match r.obs_value with
    | some v => decide (0 ≤ v)
    | none => false

/-- Line 73: `df_clean['year'] = df_clean['TIME_PERIOD'].dt.year`, an
in-place column assignment. -/
def setYearCol (f : Frame) : Frame :=
  f.map fun r => { r with year := some r.period.1 }

/-- Line 74: the month column, likewise in place. -/
def setMonthCol (f : Frame) : Frame :=
  f.map fun r => { r with month := some r.period.2 }

/-- Lines 77–78 on a frame whose `year` column has been assigned:
`groupby('year').size()` and the `>= 12` completeness cut. -/
def frameCompleteYears (f : Frame) : List Nat :=
  ((f.map fun r => r.year.getD 0).dedup).filter fun y =>
    12 ≤ f.countP fun r => r.year.getD 0 = y

/-- The body of `clean_data`, statement by statement, over an explicit
store; the caller's frame sits at `dfRef`.  Line 67 allocates the
`dropna(...).copy()` result as a fresh object bound to `df_clean`
(`cleanRef1`); line 70 allocates the mask selection and rebinds
(`cleanRef2`); lines 73–74 write through `cleanRef2` in place; lines 77–78
only read; line 85, under `if complete_years:`, allocates the
year-restricted frame and rebinds.  Lines 90–91 read `df_clean` into dead
locals (their filter, lines 93–96, is commented out) and the `print`
statements have no frame effect; neither is modeled.  No statement of the
body assigns to or writes through `dfRef`; whether the caller's frame
nevertheless survives is exactly what `c10_caller_frame_unchanged` has to
prove from these per-statement effects.  Returns the final store, the
returned frame and the warning flag of the `else` branch. -/
def clean_data_body (s0 : PdState) (dfRef : Nat) : PdState × Frame × Bool :=
  let cleanRef1 := newRef s0
  let s1 := alloc s0 (dropnaObs (readF s0 dfRef))
  let cleanRef2 := newRef s1
  let s2 := alloc s1 (maskNonneg (readF s1 cleanRef1))
  let s3 := writeF s2 cleanRef2 (setYearCol (readF s2 cleanRef2))
  let s4 := writeF s3 cleanRef2 (setMonthCol (readF s3 cleanRef2))
  let complete := frameCompleteYears (readF s4 cleanRef2)
  if complete ≠ [] then
    let s5 := alloc s4
      ((readF s4 cleanRef2).filter fun r => decide (r.year.getD 0 ∈ complete))
    (s5, readF s5 (newRef s4), false)
  else
    (s4, readF s4 cleanRef2, true)

/-- The loaded frame row of an observation: derived columns not yet
present. -/
def obsToRow (o : Obs) : FrameRow :=
  ⟨o.geo, o.period, o.obs_value, o.c_resid, none, none⟩

/-- The frame row of a retained observation: derived columns present. -/
def cObsToRow (o : CObs) : FrameRow :=
  ⟨o.geo, o.period, some o.obs_value, o.c_resid, some o.year, some o.month⟩

theorem readF_alloc_old {s : PdState} {r : Nat} (h : r < s.heap.length)
    (f : Frame) : readF (alloc s f) r = readF s r := by
  unfold readF alloc
  rw [List.getElem?_append_left h]

theorem readF_alloc_new (s : PdState) (f : Frame) :
    readF (alloc s f) (newRef s) = f := by
  unfold readF alloc newRef
  rw [List.getElem?_concat_length]
  rfl

theorem readF_writeF_same {s : PdState} {r : Nat} (h : r < s.heap.length)
    (f : Frame) : readF (writeF s r f) r = f := by
  unfold readF writeF
  rw [List.getElem?_set_self h]
  rfl

theorem readF_writeF_ne {s : PdState} {r r' : Nat} (h : r' ≠ r) (f : Frame) :
    readF (writeF s r' f) r = readF s r := by
  unfold readF writeF
  rw [List.getElem?_set_ne h]

theorem readF_writeF_alloc (s : PdState) (f g : Frame) :
    readF (writeF (alloc s f) (newRef s) g) (newRef s) = g := by
  have h : newRef s < (alloc s f).heap.length := by
    simp [alloc, newRef]
  exact readF_writeF_same h g

theorem readF_writeF2_alloc (s : PdState) (f g g' : Frame) :
    readF (writeF (writeF (alloc s f) (newRef s) g) (newRef s) g')
      (newRef s) = g' := by
  have h : newRef s < (writeF (alloc s f) (newRef s) g).heap.length := by
    simp [writeF, alloc, newRef]
  exact readF_writeF_same h g'

/-- Reading any pre-existing reference after the four heap effects of
lines 67–74: the two allocations target fresh references and the two
writes target the second fresh reference, so `r` is untouched. -/
theorem readF_body4 (s0 : PdState) (D M Y Z : Frame) {r : Nat}
    (h : r < s0.heap.length) :
    readF (writeF (writeF (alloc (alloc s0 D) M) (newRef (alloc s0 D)) Y)
      (newRef (alloc s0 D)) Z) r = readF s0 r := by
  have h1 : r < (alloc s0 D).heap.length := by
    simp only [alloc, List.length_append, List.length_cons, List.length_nil]
    omega
  have hne : newRef (alloc s0 D) ≠ r := by
    simp only [alloc, newRef, List.length_append, List.length_cons,
      List.length_nil]
    omega
  rw [readF_writeF_ne hne, readF_writeF_ne hne, readF_alloc_old h1,
    readF_alloc_old h]

/-- Lines 67–74 compute, in the frame world, exactly the annotated
survivors of the pipeline model. -/
theorem frame_annotate :
    ∀ df : List Obs,
      setMonthCol (setYearCol (maskNonneg (dropnaObs (df.map obsToRow)))) =
        (annotate df).map cObsToRow := by
  intro df
  induction df with
  | nil => rfl
  | cons o rest ih =>
    rw [List.map_cons]
    cases hv : o.obs_value with
    | none =>
      have hdrop : dropnaObs (obsToRow o :: rest.map obsToRow) =
          dropnaObs (rest.map obsToRow) := by
        simp [dropnaObs, obsToRow, hv]
      have hann : annotate (o :: rest) = annotate rest := by
        simp [annotate, hv]
      rw [hdrop, hann]
      exact ih
    | some v =>
      have hdrop : dropnaObs (obsToRow o :: rest.map obsToRow) =
          obsToRow o :: dropnaObs (rest.map obsToRow) := by
        simp [dropnaObs, obsToRow, hv]
      by_cases h0 : 0 ≤ v
      · have hmask : maskNonneg (obsToRow o :: dropnaObs (rest.map obsToRow)) =
            obsToRow o :: maskNonneg (dropnaObs (rest.map obsToRow)) := by
          simp [maskNonneg, obsToRow, hv, h0]
        have hann : annotate (o :: rest) =
            ⟨o.geo, o.period, v, o.c_resid, o.period.1, o.period.2⟩ ::
              annotate rest := by
          simp [annotate, hv, h0]
        rw [hdrop, hmask, hann, List.map_cons]
        unfold setYearCol setMonthCol
        rw [List.map_cons, List.map_cons]
        refine congrArg₂ (· :: ·) ?_ ih
        simp [obsToRow, cObsToRow, hv]
      · have hmask : maskNonneg (obsToRow o :: dropnaObs (rest.map obsToRow)) =
            maskNonneg (dropnaObs (rest.map obsToRow)) := by
          simp [maskNonneg, obsToRow, hv, h0]
        have hann : annotate (o :: rest) = annotate rest := by
          simp [annotate, hv, h0]
        rw [hdrop, hmask, hann]
        exact ih

/-- The completeness cut of lines 77–78, applied to the annotated frame,
agrees with the pipeline model's `completeYears`. -/
theorem frame_completeYears (df : List Obs) :
    frameCompleteYears ((annotate df).map cObsToRow) = completeYears df := by
  have h1 : (((annotate df).map cObsToRow).map fun r => r.year.getD 0) =
      (annotate df).map (·.year) := by
    rw [List.map_map]
    rfl
  have h2 : ∀ y : Nat,
      (((annotate df).map cObsToRow).countP fun r => decide (r.year.getD 0 = y)) =
        yearRowCount (annotate df) y := by
    intro y
    unfold yearRowCount
    rw [List.countP_map]
    rfl
  unfold frameCompleteYears completeYears
  rw [h1]
  apply List.filter_congr
  intro y _
  rw [h2 y]

/-- Line 85's year restriction in the frame world agrees with the pipeline
model's. -/
theorem frame_final_filter (df : List Obs) (complete : List Nat) :
    (((annotate df).map cObsToRow).filter
        fun r => decide (r.year.getD 0 ∈ complete)) =
      ((annotate df).filter fun o => decide (o.year ∈ complete)).map
        cObsToRow := by
  rw [List.filter_map]
  rfl

theorem readF_body5 (s0 : PdState) (D M Y Z F : Frame) {r : Nat}
    (h : r < s0.heap.length) :
    readF (alloc (writeF (writeF (alloc (alloc s0 D) M) (newRef (alloc s0 D)) Y)
      (newRef (alloc s0 D)) Z) F) r = readF s0 r := by
  have hlen : r < (writeF (writeF (alloc (alloc s0 D) M)
      (newRef (alloc s0 D)) Y) (newRef (alloc s0 D)) Z).heap.length := by
    simp only [writeF, alloc, List.length_set, List.length_append,
      List.length_cons, List.length_nil]
    omega
  rw [readF_alloc_old hlen]
  exact readF_body4 s0 D M Y Z h

/-- Claim C10: `clean_data` leaves its argument frame unchanged.  Running
the body statement by statement over the frame store — line 67 allocating
the `dropna(...).copy()` object, line 70 allocating the mask selection,
lines 73–74 writing the `year`/`month` columns in place through the
`df_clean` reference, line 85 allocating the year-restricted frame — the
caller's reference still designates exactly the frame it held before the
call (no derived columns added, no rows removed), and the returned frame
and warning flag are those of the pipeline model `clean_data`. -/
theorem c10_caller_frame_unchanged (df : List Obs) (s0 : PdState)
    (dfRef : Nat) (href : dfRef < s0.heap.length)
    (hread : readF s0 dfRef = df.map obsToRow) :
    readF (clean_data_body s0 dfRef).1 dfRef = df.map obsToRow ∧
    (clean_data_body s0 dfRef).2.1 = ((clean_data df).1).map cObsToRow ∧
    (clean_data_body s0 dfRef).2.2 = (clean_data df).2 := by
  simp only [clean_data_body]
  rw [hread]
  simp only [readF_alloc_new, readF_writeF_alloc, readF_writeF2_alloc]
  rw [frame_annotate, frame_completeYears]
  by_cases hcy : completeYears df = []
  · rw [if_neg (not_not.mpr hcy)]
    refine ⟨?_, ?_, ?_⟩
    · exact (readF_body4 s0 _ _ _ _ href).trans hread
    · show (annotate df).map cObsToRow = _
      simp only [clean_data]
      rw [if_neg (not_not.mpr hcy)]
    · show true = (clean_data df).2
      simp only [clean_data]
      rw [if_neg (not_not.mpr hcy)]
  · rw [if_pos hcy]
    refine ⟨?_, ?_, ?_⟩
    · exact (readF_body5 s0 _ _ _ _ _ href).trans hread
    · show (((annotate df).map cObsToRow).filter
          fun r => decide (r.year.getD 0 ∈ completeYears df)) = _
      rw [frame_final_filter df (completeYears df)]
      simp only [clean_data]
      rw [if_pos hcy]
    · show false = (clean_data df).2
      simp only [clean_data]
      rw [if_pos hcy]

/-- A one-row caller frame for instantiating
`c10_caller_frame_unchanged`. -/
def exC10df : List Obs := [⟨"PL", (2020, 1), some 1, "Total"⟩]

/-- The store holding the caller's frame at reference 0. -/
def exC10state : PdState := ⟨[exC10df.map obsToRow]⟩

theorem c10_witness :
    readF (clean_data_body exC10state 0).1 0 = exC10df.map obsToRow :=
  (c10_caller_frame_unchanged exC10df exC10state 0 (by decide) rfl).1
